import Mathlib

/-!
Verification of the emmental checkpointing and batch-scheduling core.

Shallow embedding of:
- `src/emmental/logging/checkpointer.py` (`Checkpointer`: `__init__`,
  `checkpoint`, `is_new_best`, `clear`, `collect_state_dict`,
  `load_best_model`)
- `src/emmental/schedulers/sequential_scheduler.py`
  (`SequentialScheduler.get_batches`)

Python dicts are modelled as association lists that keep insertion order
and have unique keys; metric values (Python floats) are modelled as `Rat`;
file names are modelled as character lists (base names inside the
checkpoint directory); the file system is a partial map from file name to
stored snapshot; Python exceptions are modelled with `Except`.
-/

namespace Emmental

/-- Python dict lookup `d[k]` / `k in d`: first matching key wins. -/
def alookup {α : Type} (k : String) : List (String × α) → Option α
  | [] => none
  | (k', v) :: rest => if k' = k then some v else alookup k rest

/-- Python dict assignment `d[k] = v`: replace in place if the key exists,
otherwise append at the end (insertion order). -/
def aupdate {α : Type} (k : String) (v : α) : List (String × α) → List (String × α)
  | [] => [(k, v)]
  | (k', v') :: rest => if k' = k then (k, v) :: rest else (k', v') :: aupdate k v rest

theorem alookup_aupdate_self {α : Type} (k : String) (v : α) (l : List (String × α)) :
    alookup k (aupdate k v l) = some v := by
  induction l with
  | nil => simp [alookup, aupdate]
  | cons p rest ih =>
    obtain ⟨pk, pv⟩ := p
    by_cases h : pk = k
    · simp [aupdate, h, alookup]
    · simp [aupdate, h, alookup, ih]

theorem alookup_aupdate_ne {α : Type} (k k' : String) (v : α) (l : List (String × α))
    (hne : k ≠ k') : alookup k' (aupdate k v l) = alookup k' l := by
  induction l with
  | nil => simp [alookup, aupdate, hne]
  | cons p rest ih =>
    obtain ⟨pk, pv⟩ := p
    by_cases h : pk = k
    · subst h
      simp [aupdate, alookup, hne]
    · simp [aupdate, h, alookup, ih]

theorem alookup_eq_none_of_not_mem_keys {α : Type} (k : String) (l : List (String × α))
    (h : k ∉ l.map Prod.fst) : alookup k l = none := by
  induction l with
  | nil => rfl
  | cons p rest ih =>
    obtain ⟨pk, pv⟩ := p
    simp only [List.map_cons, List.mem_cons] at h
    push_neg at h
    simp [alookup, Ne.symm h.1, ih h.2]

/-! ## Sequential scheduler (`sequential_scheduler.py`) -/

/-- One batch produced by a dataloader: the `X_dict` (field name to value)
and the `Y_dict` (opaque label blob). -/
structure Batch where
  X : String → Nat
  Y : Nat

/-- A dataloader as consumed by `SequentialScheduler.get_batches`: static
metadata plus the finite sequence of batches one epoch yields; `len` of the
dataloader is the length of that sequence. -/
structure DataLoader where
  task_to_label_dict : List (String × String)
  uid : String
  data_name : String
  split : String
  batches : List Batch

/-- The 6-tuple yielded per batch:
`X_dict[uid_name], X_dict, Y_dict, task_to_label_dict, data_name, split`. -/
structure Yielded where
  uid_val : Nat
  X : String → Nat
  Y : Nat
  task_to_label_dict : List (String × String)
  data_name : String
  split : String

/-- The tuple `get_batches` yields for batch `b` of dataloader `dl`. -/
def yieldedTuple (dl : DataLoader) (b : Batch) : Yielded :=
  { uid_val := b.X dl.uid, X := b.X, Y := b.Y,
    task_to_label_dict := dl.task_to_label_dict,
    data_name := dl.data_name, split := dl.split }

/-- `SequentialScheduler.get_batches`: for each dataloader in the order
supplied, pull exactly `len(dataloader)` batches from its iterator and
yield each tagged with that dataloader's metadata. -/
def get_batches : List DataLoader → List Yielded
  | [] => []
  | dl :: rest => dl.batches.map (yieldedTuple dl) ++ get_batches rest

theorem get_batches_length (dls : List DataLoader) :
    (get_batches dls).length = (dls.map (fun dl => dl.batches.length)).sum := by
  induction dls with
  | nil => rfl
  | cons dl rest ih => simp [get_batches, ih]

theorem get_batches_get? (dls : List DataLoader) (j i : Nat) (dl : DataLoader) (b : Batch)
    (hj : dls.get? j = some dl) (hi : dl.batches.get? i = some b) :
    (get_batches dls).get? (((dls.take j).map (fun d => d.batches.length)).sum + i) =
      some (yieldedTuple dl b) := by
  induction dls generalizing j with
  | nil => simp at hj
  | cons hd rest ih =>
    cases j with
    | zero =>
      simp only [List.get?_cons_zero, Option.some.injEq] at hj
      subst hj
      obtain ⟨hlt, -⟩ := List.get?_eq_some.mp hi
      simp only [List.take_zero, List.map_nil, List.sum_nil, Nat.zero_add, get_batches]
      rw [List.get?_append (by simpa using hlt), List.get?_map, hi]
      rfl
    | succ j' =>
      simp only [List.get?_cons_succ] at hj
      have := ih j' hj
      simp only [List.take_succ_cons, List.map_cons, List.sum_cons, get_batches]
      rw [Nat.add_assoc,
        List.get?_append_right (by simp [Nat.le_add_right])]
      simpa [Nat.add_sub_cancel_left] using this

/-! ## File names inside the checkpoint directory (`checkpointer.py`) -/

/-- `pre` is an initial segment of `name` (character-level prefix test,
used to model the fixed part of a glob pattern). -/
def listStartsWith : List Char → List Char → Bool
  | [], _ => true
  | _, [] => false
  | c :: cs, d :: ds => c == d && listStartsWith cs ds

/-- `suf` is a final segment of `name` (character-level suffix test). -/
def listEndsWith (suf name : List Char) : Bool :=
  listStartsWith suf.reverse name.reverse

/-- Base name `checkpoint_<iteration>.pth` written by `checkpoint()`. -/
def checkpointFileName (iteration : Int) : List Char :=
  "checkpoint_".data ++ (toString iteration).data ++ ".pth".data

/-- `metric.replace('/', '_')`. -/
def sanitizeMetric (metric : String) : List Char :=
  metric.data.map (fun c => if c = '/' then '_' else c)

/-- Base name `best_model_<metric with '/' replaced by '_'>.pth`. -/
def bestModelFileName (metric : String) : List Char :=
  "best_model_".data ++ sanitizeMetric metric ++ ".pth".data

/-- A base name matched by the glob `*.pth` used by `clear()` under
`clear_all_checkpoints`. -/
def matchPthGlob (name : List Char) : Bool :=
  listEndsWith ".pth".data name

/-- A base name matched by the glob `checkpoint_*.pth` used by `clear()`
under `clear_intermediate_checkpoints`. -/
def matchCheckpointGlob (name : List Char) : Bool :=
  listStartsWith "checkpoint_".data name && listEndsWith ".pth".data name

/-! ## Checkpointer data model -/

/-- The model collaborator: a name and an opaque serialized parameter
blob (`collect_state_dict()` returns the blob, `load_state_dict` installs
it). -/
structure EmmentalModel where
  name : String
  module_pool : Nat

/-- `model.collect_state_dict()`: the opaque serialized parameters. -/
def EmmentalModel.collect_state_dict (m : EmmentalModel) : Nat :=
  m.module_pool

/-- The snapshot structure written by `torch.save` in `checkpoint()`:
`{iteration, model: {name, module_pool}, optimizer, lr_scheduler,
metric_dict}`. -/
structure StateDict where
  iteration : Int
  model_name : String
  module_pool : Nat
  optimizer : Nat
  lr_scheduler : Option Nat
  metric_dict : List (String × Rat)
deriving DecidableEq

/-- The checkpoint directory: a partial map from base file name to the
snapshot stored in that file. -/
def Fs : Type := List Char → Option StateDict

/-- `torch.save(state_dict, path)`: (over)write one file. -/
def fsWrite (fs : Fs) (name : List Char) (sd : StateDict) : Fs :=
  fun n => if n = name then some sd else fs n

/-- `copyfile(src, dst)`: `dst` now holds the content currently at `src`. -/
def fsCopy (fs : Fs) (src dst : List Char) : Fs :=
  fun n => if n = dst then fs src else fs n

/-- Instance state of `Checkpointer` after a successful `__init__`. -/
structure Checkpointer where
  checkpoint_path : String
  checkpoint_freq : Int
  checkpoint_unit : String
  checkpoint_metric : Option (List (String × String))
  checkpoint_all_metrics : List (String × String)
  checkpoint_runway : Int
  clear_intermediate_checkpoints : Bool
  clear_all_checkpoints : Bool
  checkpoint_condition_met : Bool
  best_metric_dict : List (String × Rat)

/-- `Checkpointer.collect_state_dict`. -/
def collect_state_dict (iteration : Int) (model : EmmentalModel) (optimizer : Nat)
    (lr_scheduler : Option Nat) (metric_dict : List (String × Rat)) : StateDict :=
  { iteration := iteration, model_name := model.name,
    module_pool := model.collect_state_dict, optimizer := optimizer,
    lr_scheduler := lr_scheduler, metric_dict := metric_dict }

/-- `Checkpointer.is_new_best`, with the mutable `self.best_metric_dict`
threaded explicitly: iterate the keys of `metric_dict` in order; skip
untracked metrics; a tracked metric with no ledger entry is a new best;
otherwise a new best needs mode `"max"` and a strictly greater value, or
mode `"min"` and a strictly smaller value. Returns the updated ledger and
the set (as a list) of metrics that became new bests. -/
def is_new_best (tracked : List (String × String)) :
    List (String × Rat) → List (String × Rat) → List (String × Rat) × List String
  | ledger, [] => (ledger, [])
  | ledger, (metric, value) :: rest =>
    match alookup metric tracked with
    | none => is_new_best tracked ledger rest
    | some mode =>
      match alookup metric ledger with
      | none =>
        let r := is_new_best tracked (aupdate metric value ledger) rest
        (r.1, metric :: r.2)
      | some best =>
        if (mode = "max" ∧ best < value) ∨ (mode = "min" ∧ value < best) then
          let r := is_new_best tracked (aupdate metric value ledger) rest
          (r.1, metric :: r.2)
        else
          is_new_best tracked ledger rest

/-- The `for metric in new_best_metrics` loop of `checkpoint()`: copy the
just-written snapshot file onto each metric's best-model file. -/
def copyBestFiles (cpName : List Char) : Fs → List String → Fs
  | fs, [] => fs
  | fs, metric :: rest =>
    copyBestFiles cpName (fsCopy fs cpName (bestModelFileName metric)) rest

/-- `Checkpointer.checkpoint(iteration, model, optimizer, lr_scheduler,
metric_dict)`: below the runway do nothing; otherwise set the one-time
transition flag, write `checkpoint_<iteration>.pth`, and when some key of
`metric_dict` is tracked, compute the new bests and copy the snapshot to
each best-model file. -/
def Checkpointer.checkpoint (c : Checkpointer) (fs : Fs) (iteration : Int)
    (model : EmmentalModel) (optimizer : Nat) (lr_scheduler : Option Nat)
    (metric_dict : List (String × Rat)) : Checkpointer × Fs :=
  if iteration < c.checkpoint_runway then
    (c, fs)
  else
    let c1 :=
      if ¬c.checkpoint_condition_met ∧ c.checkpoint_runway ≤ iteration then
        { c with checkpoint_condition_met := true }
      else c
    let sd := collect_state_dict iteration model optimizer lr_scheduler metric_dict
    let cpName := checkpointFileName iteration
    let fs1 := fsWrite fs cpName sd
    if metric_dict.any (fun kv => (alookup kv.1 c1.checkpoint_all_metrics).isSome) then
      let r := is_new_best c1.checkpoint_all_metrics c1.best_metric_dict metric_dict
      ({ c1 with best_metric_dict := r.1 }, copyBestFiles cpName fs1 r.2)
    else
      (c1, fs1)

/-- `Checkpointer.clear()` acting on the set of base file names present in
the checkpoint directory: `clear_all_checkpoints` removes every `*.pth`
file (taking precedence); otherwise `clear_intermediate_checkpoints`
removes every `checkpoint_*.pth` file; otherwise nothing is removed. -/
def Checkpointer.clear (c : Checkpointer) (dir : List (List Char)) : List (List Char) :=
  if c.clear_all_checkpoints then
    dir.filter (fun f => !matchPthGlob f)
  else if c.clear_intermediate_checkpoints then
    dir.filter (fun f => !matchCheckpointGlob f)
  else
    dir

/-- Errors `load_best_model` can raise. -/
inductive LoadError where
  | attributeError : LoadError
  | indexError : LoadError
  | ioError : LoadError
deriving DecidableEq

/-- `Checkpointer.load_best_model(model)`: take the first key of
`checkpoint_metric` (an uncaught exception if `checkpoint_metric` is
`None` or empty); if it has no ledger entry, return the model unchanged
with no file read; otherwise read the metric's best-model file (an I/O
error if missing) and install its stored name and parameters. Returns the
list of file names read together with the result. -/
def Checkpointer.load_best_model (c : Checkpointer) (fs : Fs) (model : EmmentalModel) :
    List (List Char) × Except LoadError EmmentalModel :=
  match c.checkpoint_metric with
  | none => ([], Except.error LoadError.attributeError)
  | some [] => ([], Except.error LoadError.indexError)
  | some ((metric, _) :: _) =>
    match alookup metric c.best_metric_dict with
    | none => ([], Except.ok model)
    | some _ =>
      let p := bestModelFileName metric
      match fs p with
      | none => ([p], Except.error LoadError.ioError)
      | some sd =>
        ([p], Except.ok { name := sd.model_name, module_pool := sd.module_pool })

/-! ## Construction (`Checkpointer.__init__`) -/

/-- The slice of `Meta.config` read by `Checkpointer.__init__`. -/
structure Config where
  log_path : String
  checkpoint_path : Option String
  evaluation_freq : Int
  checkpoint_freq : Int
  counter_unit : String
  checkpoint_metric : Option (List (String × String))
  checkpoint_task_metrics : Option (List (String × String))
  checkpoint_runway : Int
  clear_intermediate_checkpoints : Bool
  clear_all_checkpoints : Bool

/-- `Checkpointer.__init__`, with filesystem effects made explicit: the
first component is the list of directories created (`os.makedirs` runs
when the checkpoint path does not exist, before any validation); the
second is the constructed instance, or the `ValueError` message raised by
validation. -/
def effectivePath (cfg : Config) : String :=
  match cfg.checkpoint_path with
  | none => cfg.log_path
  | some p => p

/-- The merged tracked-metrics dict built by `__init__`:
`checkpoint_task_metrics or dict()` updated with `checkpoint_metric` when
the latter is truthy (not `None` and non-empty). -/
def mergedMetrics (cfg : Config) : List (String × String) :=
  let base : List (String × String) := match cfg.checkpoint_task_metrics with
    | none => []
    | some l => l
  match cfg.checkpoint_metric with
  | none => base
  | some cpm => cpm.foldl (fun acc kv => aupdate kv.1 kv.2 acc) base

def initCheckpointer (cfg : Config) (pathExists : Bool) :
    List String × Except String Checkpointer :=
  let path := effectivePath cfg
  let created := if pathExists then [] else [path]
  let freq := cfg.evaluation_freq * cfg.checkpoint_freq
  if freq ≤ 0 then
    (created, Except.error "Invalid checkpoint freq")
  else
    let allMetrics := mergedMetrics cfg
    match allMetrics.find? (fun kv => !(kv.2 == "min" || kv.2 == "max")) with
    | some _ => (created, Except.error "Unrecognized checkpoint metric mode")
    | none =>
      (created, Except.ok
        { checkpoint_path := path
          checkpoint_freq := freq
          checkpoint_unit := cfg.counter_unit
          checkpoint_metric := cfg.checkpoint_metric
          checkpoint_all_metrics := allMetrics
          checkpoint_runway := cfg.checkpoint_runway
          clear_intermediate_checkpoints := cfg.clear_intermediate_checkpoints
          clear_all_checkpoints := cfg.clear_all_checkpoints
          checkpoint_condition_met := false
          best_metric_dict := [] })

/-! ## File-name lemmas -/

theorem listStartsWith_nil (x : List Char) : listStartsWith [] x = true := by
  cases x <;> rfl

theorem listStartsWith_append_self (l t : List Char) :
    listStartsWith l (l ++ t) = true := by
  induction l with
  | nil => exact listStartsWith_nil t
  | cons c cs ih => simp [listStartsWith, ih]

theorem listStartsWith_append_left (l x t : List Char) (h : l.length ≤ x.length) :
    listStartsWith l (x ++ t) = listStartsWith l x := by
  induction l generalizing x with
  | nil => simp [listStartsWith_nil]
  | cons c cs ih =>
    cases x with
    | nil => simp at h
    | cons d ds =>
      simp only [List.cons_append, listStartsWith, List.append_eq]
      rw [ih ds (by simpa using h)]

theorem listEndsWith_append_self (s x : List Char) :
    listEndsWith s (x ++ s) = true := by
  rw [listEndsWith, List.reverse_append]
  exact listStartsWith_append_self _ _

theorem matchPthGlob_checkpointFileName (i : Int) :
    matchPthGlob (checkpointFileName i) = true :=
  listEndsWith_append_self _ _

theorem matchPthGlob_bestModelFileName (m : String) :
    matchPthGlob (bestModelFileName m) = true :=
  listEndsWith_append_self _ _

theorem listStartsWith_ckpt_checkpointFileName (i : Int) :
    listStartsWith "checkpoint_".data (checkpointFileName i) = true := by
  rw [checkpointFileName, List.append_assoc]
  exact listStartsWith_append_self _ _

theorem listStartsWith_ckpt_bestModelFileName (m : String) :
    listStartsWith "checkpoint_".data (bestModelFileName m) = false := by
  rw [bestModelFileName, List.append_assoc,
    listStartsWith_append_left _ _ _ (by decide)]
  decide

theorem matchCheckpointGlob_checkpointFileName (i : Int) :
    matchCheckpointGlob (checkpointFileName i) = true := by
  have h2 := matchPthGlob_checkpointFileName i
  rw [matchPthGlob] at h2
  rw [matchCheckpointGlob, listStartsWith_ckpt_checkpointFileName, h2]
  rfl

theorem matchCheckpointGlob_bestModelFileName (m : String) :
    matchCheckpointGlob (bestModelFileName m) = false := by
  rw [matchCheckpointGlob, listStartsWith_ckpt_bestModelFileName]
  rfl

theorem bestModelFileName_ne_checkpointFileName (m : String) (i : Int) :
    bestModelFileName m ≠ checkpointFileName i := by
  intro h
  have h1 := listStartsWith_ckpt_bestModelFileName m
  rw [h, listStartsWith_ckpt_checkpointFileName] at h1
  exact Bool.noConfusion h1

/-! ## Concrete objects used by witnesses and counterexamples -/

def demoModel : EmmentalModel :=
  { name := "demo", module_pool := 7 }

def emptyFs : Fs := fun _ => none

def demoCheckpointer : Checkpointer :=
  { checkpoint_path := "logs"
    checkpoint_freq := 1
    checkpoint_unit := "epoch"
    checkpoint_metric := some [("accuracy", "max")]
    checkpoint_all_metrics := [("accuracy", "max")]
    checkpoint_runway := 10
    clear_intermediate_checkpoints := false
    clear_all_checkpoints := false
    checkpoint_condition_met := false
    best_metric_dict := [] }

/-! ## Claim C7: checkpoint below the runway is a pure no-op -/

/-- C7: for every `checkpoint` call with `iteration < checkpoint_runway`,
the call returns with the file system untouched, the ledger and every
other field of the `Checkpointer` unchanged, and the transition flag kept
as it was (in particular still false when it was false). -/
theorem c7_checkpoint_below_runway_noop (c : Checkpointer) (fs : Fs) (iteration : Int)
    (model : EmmentalModel) (optimizer : Nat) (lr_scheduler : Option Nat)
    (metric_dict : List (String × Rat))
    (h : iteration < c.checkpoint_runway) :
    c.checkpoint fs iteration model optimizer lr_scheduler metric_dict = (c, fs) ∧
    (c.checkpoint fs iteration model optimizer lr_scheduler metric_dict).1.checkpoint_condition_met
      = c.checkpoint_condition_met := by
  constructor <;> simp [Checkpointer.checkpoint, h]

/-- Witness for C7 at a concrete input. -/
theorem c7_witness :
    demoCheckpointer.checkpoint emptyFs 3 demoModel 0 none [("accuracy", 1/2)] =
      (demoCheckpointer, emptyFs) ∧
    (demoCheckpointer.checkpoint emptyFs 3 demoModel 0 none
        [("accuracy", 1/2)]).1.checkpoint_condition_met
      = demoCheckpointer.checkpoint_condition_met :=
  c7_checkpoint_below_runway_noop demoCheckpointer emptyFs 3 demoModel 0 none
    [("accuracy", 1/2)] (by decide)

/-! ## Claim C6: load_best_model with no ledger entry is a frame no-op -/

/-- C6: when the first key of `checkpoint_metric` has no ledger entry,
`load_best_model` reads no file and returns the model unchanged. -/
theorem c6_load_best_model_no_entry (c : Checkpointer) (fs : Fs) (model : EmmentalModel)
    (metric mode : String) (rest : List (String × String))
    (hm : c.checkpoint_metric = some ((metric, mode) :: rest))
    (hl : alookup metric c.best_metric_dict = none) :
    c.load_best_model fs model = ([], Except.ok model) := by
  simp [Checkpointer.load_best_model, hm, hl]

/-- Witness for C6 at a concrete input. -/
theorem c6_witness :
    demoCheckpointer.load_best_model emptyFs demoModel = ([], Except.ok demoModel) :=
  c6_load_best_model_no_entry demoCheckpointer emptyFs demoModel "accuracy" "max" [] rfl rfl

/-! ## Claim C10: load_best_model with empty checkpoint_metric raises -/

/-- C10: with `checkpoint_metric` empty (or `None`), every
`load_best_model` call raises an uncaught error (indexing the first
element of an empty key list) instead of returning the model. -/
theorem c10_load_best_model_empty_metric (c : Checkpointer) (fs : Fs)
    (model : EmmentalModel)
    (h : c.checkpoint_metric = some [] ∨ c.checkpoint_metric = none) :
    ∃ e, c.load_best_model fs model = ([], Except.error e) := by
  rcases h with h | h
  · exact ⟨LoadError.indexError, by simp [Checkpointer.load_best_model, h]⟩
  · exact ⟨LoadError.attributeError, by simp [Checkpointer.load_best_model, h]⟩

def demoCheckpointerNoMetric : Checkpointer :=
  { demoCheckpointer with checkpoint_metric := some [] }

/-- Witness for C10 at a concrete input. -/
theorem c10_witness :
    ∃ e, demoCheckpointerNoMetric.load_best_model emptyFs demoModel =
      ([], Except.error e) :=
  c10_load_best_model_empty_metric demoCheckpointerNoMetric emptyFs demoModel (Or.inl rfl)

/-! ## Claim C3: sequential scheduler yields all batches in source order -/

/-- C3: `get_batches` yields `n1 + ... + nk` tuples; the tuple at offset
`i` inside source `j`'s block is source `j`'s `i`-th batch tagged with
source `j`'s metadata — nothing dropped, duplicated or reordered. -/
theorem c3_sequential_scheduler (dls : List DataLoader) :
    (get_batches dls).length = (dls.map (fun dl => dl.batches.length)).sum ∧
    ∀ (j i : Nat) (dl : DataLoader) (b : Batch),
      dls.get? j = some dl → dl.batches.get? i = some b →
      (get_batches dls).get? (((dls.take j).map (fun d => d.batches.length)).sum + i) =
        some (yieldedTuple dl b) :=
  ⟨get_batches_length dls, fun j i dl b hj hi => get_batches_get? dls j i dl b hj hi⟩

def demoBatch (n : Nat) : Batch := { X := fun _ => n, Y := n }

def demoLoader1 : DataLoader :=
  { task_to_label_dict := [("task1", "label1")], uid := "uid", data_name := "d1",
    split := "train", batches := [demoBatch 0, demoBatch 1, demoBatch 2] }

def demoLoader2 : DataLoader :=
  { task_to_label_dict := [("task2", "label2")], uid := "uid", data_name := "d2",
    split := "train", batches := [demoBatch 3, demoBatch 4] }

/-- Witness for C3: sources with batch counts [3, 2] give 5 tuples and the
4th tuple is source 2's first batch with source 2's metadata. -/
theorem c3_witness :
    (get_batches [demoLoader1, demoLoader2]).length = 5 ∧
    (get_batches [demoLoader1, demoLoader2]).get? 3 =
      some (yieldedTuple demoLoader2 (demoBatch 3)) := by
  constructor
  · rw [(c3_sequential_scheduler [demoLoader1, demoLoader2]).1]
    rfl
  · have h := (c3_sequential_scheduler [demoLoader1, demoLoader2]).2 1 0 demoLoader2
      (demoBatch 3) rfl rfl
    simpa [demoLoader1] using h

/-! ## Claim C4: construction errors and the checkpoint directory -/

/-- The property claim C4 asserts: an invalid effective frequency or an
invalid metric mode makes `__init__` raise, with no directory created
before the failure. -/
def c4_claimStatement : Prop :=
  ∀ (cfg : Config) (pathExists : Bool),
    (cfg.evaluation_freq * cfg.checkpoint_freq ≤ 0 ∨
      ∃ p ∈ mergedMetrics cfg, p.2 ≠ "min" ∧ p.2 ≠ "max") →
    (∃ e, (initCheckpointer cfg pathExists).2 = Except.error e) ∧
    (initCheckpointer cfg pathExists).1 = []

def badFreqConfig : Config :=
  { log_path := "logs", checkpoint_path := none, evaluation_freq := 1,
    checkpoint_freq := 0, counter_unit := "epoch",
    checkpoint_metric := some [("accuracy", "max")],
    checkpoint_task_metrics := none, checkpoint_runway := 0,
    clear_intermediate_checkpoints := false, clear_all_checkpoints := false }

/-- C4 fails as stated: with `checkpoint_freq = 0` and a missing
checkpoint directory, `__init__` does raise, but only after the directory
has been created (`os.makedirs` runs before both validations). -/
theorem c4_counterexample : ¬c4_claimStatement := by
  intro h
  have h2 := (h badFreqConfig false (Or.inl (by decide))).2
  exact absurd h2 (by decide)

/-- C4 amended: constructing with effective `checkpoint_freq ≤ 0` or any
tracked mode other than "min"/"max" raises a configuration error, but the
checkpoint directory (when absent) is created before validation runs, so
the directory-creation side effect precedes the failure. -/
theorem c4_error_after_makedirs (cfg : Config) (pathExists : Bool)
    (h : cfg.evaluation_freq * cfg.checkpoint_freq ≤ 0 ∨
      ∃ p ∈ mergedMetrics cfg, p.2 ≠ "min" ∧ p.2 ≠ "max") :
    (∃ e, (initCheckpointer cfg pathExists).2 = Except.error e) ∧
    (initCheckpointer cfg pathExists).1 =
      (if pathExists then [] else [effectivePath cfg]) := by
  by_cases hf : cfg.evaluation_freq * cfg.checkpoint_freq ≤ 0
  · refine ⟨⟨"Invalid checkpoint freq", ?_⟩, ?_⟩ <;>
    · simp only [initCheckpointer]
      rw [if_pos hf]
  · have hbad := h.resolve_left hf
    have hfind : ((mergedMetrics cfg).find?
        (fun kv => !(kv.2 == "min" || kv.2 == "max"))).isSome := by
      rw [List.find?_isSome]
      obtain ⟨p, hp, h1, h2⟩ := hbad
      exact ⟨p, hp, by simp [h1, h2]⟩
    obtain ⟨q, hq⟩ := Option.isSome_iff_exists.mp hfind
    refine ⟨⟨"Unrecognized checkpoint metric mode", ?_⟩, ?_⟩ <;>
    · simp only [initCheckpointer]
      rw [if_neg hf, hq]

/-- Witness for the amended C4 at a concrete input. -/
theorem c4_witness :
    (∃ e, (initCheckpointer badFreqConfig false).2 = Except.error e) ∧
    (initCheckpointer badFreqConfig false).1 =
      (if false then [] else [effectivePath badFreqConfig]) :=
  c4_error_after_makedirs badFreqConfig false (Or.inl (by decide))

/-! ## Claim C5: clear() deletion policy -/

/-- C5: with `clear_all_checkpoints` every `*.pth` file — in particular
every per-iteration snapshot and every best-model copy — is removed, and
the intermediate flag is irrelevant (precedence); with only
`clear_intermediate_checkpoints` exactly the `checkpoint_*.pth` files are
removed and every best-model file survives; with neither flag `clear` is
a no-op. -/
theorem c5_clear (c : Checkpointer) (dir : List (List Char)) :
    (c.clear_all_checkpoints = true →
      (∀ b : Bool,
        ({ c with clear_intermediate_checkpoints := b } : Checkpointer).clear dir =
          c.clear dir) ∧
      (∀ f ∈ dir, matchPthGlob f = true → f ∉ c.clear dir) ∧
      (∀ i : Int, checkpointFileName i ∉ c.clear dir) ∧
      (∀ m : String, bestModelFileName m ∉ c.clear dir)) ∧
    (c.clear_all_checkpoints = false → c.clear_intermediate_checkpoints = true →
      (c.clear dir = dir.filter (fun f => !matchCheckpointGlob f)) ∧
      (∀ i : Int, checkpointFileName i ∉ c.clear dir) ∧
      (∀ m : String, bestModelFileName m ∈ dir → bestModelFileName m ∈ c.clear dir)) ∧
    (c.clear_all_checkpoints = false → c.clear_intermediate_checkpoints = false →
      c.clear dir = dir) := by
  refine ⟨fun hall => ⟨?_, ?_, ?_, ?_⟩, fun hall hint => ⟨?_, ?_, ?_⟩, fun hall hint => ?_⟩
  · intro b
    simp [Checkpointer.clear, hall]
  · intro f hf hpth
    simp [Checkpointer.clear, hall, List.mem_filter, hpth]
  · intro i
    simp [Checkpointer.clear, hall, List.mem_filter, matchPthGlob_checkpointFileName]
  · intro m
    simp [Checkpointer.clear, hall, List.mem_filter, matchPthGlob_bestModelFileName]
  · simp [Checkpointer.clear, hall, hint]
  · intro i
    simp [Checkpointer.clear, hall, hint, List.mem_filter,
      matchCheckpointGlob_checkpointFileName]
  · intro m hm
    simp [Checkpointer.clear, hall, hint, List.mem_filter,
      matchCheckpointGlob_bestModelFileName, hm]
  · simp [Checkpointer.clear, hall, hint]

def demoClearAll : Checkpointer :=
  { demoCheckpointer with clear_all_checkpoints := true }

def demoClearIntermediate : Checkpointer :=
  { demoCheckpointer with clear_intermediate_checkpoints := true }

def demoDir : List (List Char) := [checkpointFileName 1, bestModelFileName "accuracy"]

/-- Witness for C5 on a concrete directory. -/
theorem c5_witness :
    (checkpointFileName 1 ∉ demoClearAll.clear demoDir ∧
      bestModelFileName "accuracy" ∉ demoClearAll.clear demoDir) ∧
    (checkpointFileName 1 ∉ demoClearIntermediate.clear demoDir ∧
      bestModelFileName "accuracy" ∈ demoClearIntermediate.clear demoDir) ∧
    demoCheckpointer.clear demoDir = demoDir := by
  refine ⟨⟨((c5_clear demoClearAll demoDir).1 rfl).2.2.1 1,
      ((c5_clear demoClearAll demoDir).1 rfl).2.2.2 "accuracy"⟩,
    ⟨((c5_clear demoClearIntermediate demoDir).2.1 rfl rfl).2.1 1,
      ((c5_clear demoClearIntermediate demoDir).2.1 rfl rfl).2.2 "accuracy" ?_⟩,
    (c5_clear demoCheckpointer demoDir).2.2 rfl rfl⟩
  simp [demoDir]

/-! ## Behaviour of is_new_best -/

/-- How one `is_new_best` call transforms the ledger entry of a metric
`m`, assuming the metric dict has unique keys (as a Python dict does). -/
theorem is_new_best_ledger_lookup (tracked : List (String × String)) (m : String)
    (entries : List (String × Rat)) :
    ∀ ledger : List (String × Rat), (entries.map Prod.fst).Nodup →
      alookup m (is_new_best tracked ledger entries).1 =
        match alookup m entries, alookup m tracked with
        | some v, some mode =>
          (match alookup m ledger with
           | none => some v
           | some b =>
             if (mode = "max" ∧ b < v) ∨ (mode = "min" ∧ v < b) then some v else some b)
        | _, _ => alookup m ledger := by
  induction entries with
  | nil =>
    intro ledger _
    cases htr : alookup m tracked <;> simp [is_new_best, alookup, htr]
  | cons p rest ih =>
    obtain ⟨k, v⟩ := p
    intro ledger hnodup
    simp only [List.map_cons, List.nodup_cons] at hnodup
    obtain ⟨hk, hrest⟩ := hnodup
    by_cases hmk : m = k
    · subst hmk
      have hrestm : alookup m rest = none := alookup_eq_none_of_not_mem_keys _ _ hk
      cases htr : alookup m tracked with
      | none =>
        simp only [is_new_best, htr]
        rw [ih ledger hrest, hrestm]
        simp [alookup, htr]
      | some mode =>
        cases hld : alookup m ledger with
        | none =>
          simp only [is_new_best, htr, hld]
          rw [ih (aupdate m v ledger) hrest, hrestm]
          simp [alookup, htr, hld, alookup_aupdate_self]
        | some b =>
          by_cases hcond : (mode = "max" ∧ b < v) ∨ (mode = "min" ∧ v < b)
          · simp only [is_new_best, htr, hld, if_pos hcond]
            rw [ih (aupdate m v ledger) hrest, hrestm]
            simp [alookup, htr, hld, alookup_aupdate_self, hcond]
          · simp only [is_new_best, htr, hld, if_neg hcond]
            rw [ih ledger hrest, hrestm]
            simp [alookup, htr, hld, hcond]
    · have hkm : k ≠ m := fun hh => hmk hh.symm
      have hent : alookup m ((k, v) :: rest) = alookup m rest := by
        simp [alookup, hkm]
      cases htr : alookup k tracked with
      | none =>
        simp only [is_new_best, htr]
        rw [ih ledger hrest, hent]
      | some mode =>
        cases hld : alookup k ledger with
        | none =>
          simp only [is_new_best, htr, hld]
          rw [ih (aupdate k v ledger) hrest, hent,
            alookup_aupdate_ne k m v ledger hkm]
        | some b =>
          by_cases hcond : (mode = "max" ∧ b < v) ∨ (mode = "min" ∧ v < b)
          · simp only [is_new_best, htr, hld, if_pos hcond]
            rw [ih (aupdate k v ledger) hrest, hent,
              alookup_aupdate_ne k m v ledger hkm]
          · simp only [is_new_best, htr, hld, if_neg hcond]
            rw [ih ledger hrest, hent]

/-- Exactly when a metric is in the returned new-best set, assuming the
metric dict has unique keys. -/
theorem is_new_best_fired_iff (tracked : List (String × String)) (m : String)
    (entries : List (String × Rat)) :
    ∀ ledger : List (String × Rat), (entries.map Prod.fst).Nodup →
      (m ∈ (is_new_best tracked ledger entries).2 ↔
        ∃ v mode, alookup m entries = some v ∧ alookup m tracked = some mode ∧
          (alookup m ledger = none ∨
            ∃ b, alookup m ledger = some b ∧
              ((mode = "max" ∧ b < v) ∨ (mode = "min" ∧ v < b)))) := by
  induction entries with
  | nil =>
    intro ledger _
    simp [is_new_best, alookup]
  | cons p rest ih =>
    obtain ⟨k, v⟩ := p
    intro ledger hnodup
    simp only [List.map_cons, List.nodup_cons] at hnodup
    obtain ⟨hk, hrest⟩ := hnodup
    by_cases hmk : m = k
    · subst hmk
      have hrestm : alookup m rest = none := alookup_eq_none_of_not_mem_keys _ _ hk
      have hent : alookup m ((m, v) :: rest) = some v := by simp [alookup]
      cases htr : alookup m tracked with
      | none =>
        simp only [is_new_best, htr]
        rw [ih ledger hrest]
        simp [hent, htr, hrestm]
      | some mode =>
        cases hld : alookup m ledger with
        | none =>
          simp only [is_new_best, htr, hld]
          simp [hent, htr, hld]
        | some b =>
          by_cases hcond : (mode = "max" ∧ b < v) ∨ (mode = "min" ∧ v < b)
          · simp only [is_new_best, htr, hld, if_pos hcond]
            simp [hent, htr, hld, hcond]
          · simp only [is_new_best, htr, hld, if_neg hcond]
            rw [ih ledger hrest]
            simp [hent, htr, hld, hrestm, hcond]
    · have hkm : k ≠ m := fun hh => hmk hh.symm
      have hent : alookup m ((k, v) :: rest) = alookup m rest := by
        simp [alookup, hkm]
      cases htr : alookup k tracked with
      | none =>
        simp only [is_new_best, htr]
        rw [ih ledger hrest]
        simp [hent]
      | some mode =>
        cases hld : alookup k ledger with
        | none =>
          simp only [is_new_best, htr, hld]
          rw [List.mem_cons]
          rw [ih (aupdate k v ledger) hrest]
          simp [hent, hmk, alookup_aupdate_ne k m v ledger hkm]
        | some b =>
          by_cases hcond : (mode = "max" ∧ b < v) ∨ (mode = "min" ∧ v < b)
          · simp only [is_new_best, htr, hld, if_pos hcond]
            rw [List.mem_cons]
            rw [ih (aupdate k v ledger) hrest]
            simp [hent, hmk, alookup_aupdate_ne k m v ledger hkm]
          · simp only [is_new_best, htr, hld, if_neg hcond]
            rw [ih ledger hrest]
            simp [hent]

/-- A fired metric is present in the metric dict and tracked (no
uniqueness assumption needed). -/
theorem is_new_best_fired_tracked_present (tracked : List (String × String))
    (entries : List (String × Rat)) :
    ∀ (ledger : List (String × Rat)) (m : String),
      m ∈ (is_new_best tracked ledger entries).2 →
      ∃ v, (m, v) ∈ entries ∧ (alookup m tracked).isSome = true := by
  induction entries with
  | nil =>
    intro ledger m h
    simp [is_new_best] at h
  | cons p rest ih =>
    obtain ⟨k, v⟩ := p
    intro ledger m h
    cases htr : alookup k tracked with
    | none =>
      simp only [is_new_best, htr] at h
      obtain ⟨v', hv', htrk⟩ := ih ledger m h
      exact ⟨v', List.mem_cons_of_mem _ hv', htrk⟩
    | some mode =>
      cases hld : alookup k ledger with
      | none =>
        simp only [is_new_best, htr, hld] at h
        rcases List.mem_cons.mp h with h | h
        · subst h
          exact ⟨v, List.mem_cons_self _ _, by simp [htr]⟩
        · obtain ⟨v', hv', htrk⟩ := ih _ m h
          exact ⟨v', List.mem_cons_of_mem _ hv', htrk⟩
      | some b =>
        by_cases hcond : (mode = "max" ∧ b < v) ∨ (mode = "min" ∧ v < b)
        · simp only [is_new_best, htr, hld, if_pos hcond] at h
          rcases List.mem_cons.mp h with h | h
          · subst h
            exact ⟨v, List.mem_cons_self _ _, by simp [htr]⟩
          · obtain ⟨v', hv', htrk⟩ := ih _ m h
            exact ⟨v', List.mem_cons_of_mem _ hv', htrk⟩
        · simp only [is_new_best, htr, hld, if_neg hcond] at h
          obtain ⟨v', hv', htrk⟩ := ih ledger m h
          exact ⟨v', List.mem_cons_of_mem _ hv', htrk⟩

/-! ## Claim C1: the new-best rule -/

/-- A sequence of `is_new_best` calls against the evolving ledger,
returning the final ledger and the fired set of each call. -/
def runNewBestCalls (tracked : List (String × String)) :
    List (String × Rat) → List (List (String × Rat)) →
      List (String × Rat) × List (List String)
  | ledger, [] => (ledger, [])
  | ledger, d :: rest =>
    let r := is_new_best tracked ledger d
    let r2 := runNewBestCalls tracked r.1 rest
    (r2.1, r.2 :: r2.2)

/-- C1: `is_new_best` fires exactly for the metrics present in both the
metric dict and the tracked set whose value is a first observation, or
strictly better under the metric's mode (ties and untracked metrics never
fire); each fired metric's ledger entry is updated to the new value; and
for a MAX metric fed [0.5, 0.3, 0.9, 0.9, 0.7] it fires on calls 1 and 3
only, with the ledger ending at 0.9. -/
theorem c1_is_new_best (tracked : List (String × String))
    (ledger entries : List (String × Rat)) (m : String)
    (hnodup : (entries.map Prod.fst).Nodup) :
    (m ∈ (is_new_best tracked ledger entries).2 ↔
      ∃ v mode, alookup m entries = some v ∧ alookup m tracked = some mode ∧
        (alookup m ledger = none ∨
          ∃ b, alookup m ledger = some b ∧
            ((mode = "max" ∧ b < v) ∨ (mode = "min" ∧ v < b)))) ∧
    (m ∈ (is_new_best tracked ledger entries).2 →
      alookup m (is_new_best tracked ledger entries).1 = alookup m entries) ∧
    runNewBestCalls [("metric", "max")] []
        [[("metric", mkRat 1 2)], [("metric", mkRat 3 10)], [("metric", mkRat 9 10)],
          [("metric", mkRat 9 10)], [("metric", mkRat 7 10)]] =
      ([("metric", mkRat 9 10)], [["metric"], [], ["metric"], [], []]) := by
  refine ⟨is_new_best_fired_iff tracked m entries ledger hnodup, ?_, by decide⟩
  intro hm
  obtain ⟨v, mode, hent, htr, hcase⟩ :=
    (is_new_best_fired_iff tracked m entries ledger hnodup).mp hm
  rw [is_new_best_ledger_lookup tracked m entries ledger hnodup, hent, htr]
  rcases hcase with hld | ⟨b, hld, hcond⟩
  · simp [hld]
  · simp [hld, hcond]

/-- Witness for C1: the MAX-mode example sequence, via the theorem applied
at a concrete tracked set, ledger and metric dict. -/
theorem c1_witness :
    runNewBestCalls [("metric", "max")] []
        [[("metric", mkRat 1 2)], [("metric", mkRat 3 10)], [("metric", mkRat 9 10)],
          [("metric", mkRat 9 10)], [("metric", mkRat 7 10)]] =
      ([("metric", mkRat 9 10)], [["metric"], [], ["metric"], [], []]) :=
  (c1_is_new_best [("metric", "max")] [] [("metric", mkRat 1 2)] "metric" (by decide)).2.2

/-! ## Behaviour of the best-model copy loop -/

theorem copyBestFiles_apply (cpName : List Char) (metrics : List String) :
    ∀ (fs : Fs) (n : List Char), (∀ m' ∈ metrics, bestModelFileName m' ≠ cpName) →
      copyBestFiles cpName fs metrics n =
        if metrics.any (fun m' => decide (bestModelFileName m' = n)) then fs cpName
        else fs n := by
  induction metrics with
  | nil =>
    intro fs n _
    simp [copyBestFiles]
  | cons m0 rest ih =>
    intro fs n h
    have h0 : bestModelFileName m0 ≠ cpName := h m0 (List.mem_cons_self _ _)
    have hcp : fsCopy fs cpName (bestModelFileName m0) cpName = fs cpName := by
      simp [fsCopy, Ne.symm h0]
    have hn' : fsCopy fs cpName (bestModelFileName m0) n =
        if n = bestModelFileName m0 then fs cpName else fs n := rfl
    rw [copyBestFiles, ih _ n (fun m' hm' => h m' (List.mem_cons_of_mem _ hm')), hcp, hn']
    by_cases hn : bestModelFileName m0 = n
    · subst hn
      by_cases hr : rest.any
          (fun m' => decide (bestModelFileName m' = bestModelFileName m0)) = true
      · simp [List.any_cons, hr]
      · simp [List.any_cons, hr]
    · by_cases hr : rest.any (fun m' => decide (bestModelFileName m' = n)) = true
      · simp [List.any_cons, hr]
      · simp [List.any_cons, hr, hn, Ne.symm hn]

theorem any_bestModelFileName_ne_checkpoint (L : List String) (i : Int) :
    L.any (fun m' => decide (bestModelFileName m' = checkpointFileName i)) = false := by
  rw [List.any_eq_false]
  intro m' _
  simp [bestModelFileName_ne_checkpointFileName]

/-- Closed form of a `checkpoint` call at or above the runway: the flag is
set, the snapshot is written, and when some metric-dict key is tracked the
ledger is replaced by the `is_new_best` update and the new bests receive
best-model copies. -/
theorem checkpoint_result (c : Checkpointer) (fs : Fs) (iteration : Int)
    (model : EmmentalModel) (optimizer : Nat) (lr_scheduler : Option Nat)
    (metric_dict : List (String × Rat)) (h : ¬iteration < c.checkpoint_runway) :
    c.checkpoint fs iteration model optimizer lr_scheduler metric_dict =
      ({ c with
          checkpoint_condition_met := true
          best_metric_dict :=
            if metric_dict.any (fun kv => (alookup kv.1 c.checkpoint_all_metrics).isSome)
            then (is_new_best c.checkpoint_all_metrics c.best_metric_dict metric_dict).1
            else c.best_metric_dict },
        if metric_dict.any (fun kv => (alookup kv.1 c.checkpoint_all_metrics).isSome)
        then copyBestFiles (checkpointFileName iteration)
          (fsWrite fs (checkpointFileName iteration)
            (collect_state_dict iteration model optimizer lr_scheduler metric_dict))
          (is_new_best c.checkpoint_all_metrics c.best_metric_dict metric_dict).2
        else fsWrite fs (checkpointFileName iteration)
          (collect_state_dict iteration model optimizer lr_scheduler metric_dict)) := by
  obtain ⟨cp, cf, cu, cm, ca, cr, cic, cac, met, best⟩ := c
  have h' : ¬iteration < cr := h
  have hge : cr ≤ iteration := le_of_not_lt h'
  by_cases hflag : met <;>
    by_cases hany : metric_dict.any (fun kv => (alookup kv.1 ca).isSome) = true <;>
    simp [Checkpointer.checkpoint, h', hflag, hany, hge]

/-! ## Claim C9: the snapshot write is unconditional above the runway -/

/-- C9: every `checkpoint` call with `iteration ≥ checkpoint_runway`
writes `checkpoint_<iteration>.pth` — even with an empty or untracked
`metric_dict` — and `checkpoint_freq` is never consulted: changing it
changes nothing in the output but the stored field itself. -/
theorem c9_checkpoint_always_writes (c : Checkpointer) (fs : Fs) (iteration : Int)
    (model : EmmentalModel) (optimizer : Nat) (lr_scheduler : Option Nat)
    (metric_dict : List (String × Rat)) (freq : Int)
    (h : ¬iteration < c.checkpoint_runway) :
    ((c.checkpoint fs iteration model optimizer lr_scheduler metric_dict).2
        (checkpointFileName iteration) =
      some (collect_state_dict iteration model optimizer lr_scheduler metric_dict)) ∧
    (({ c with checkpoint_freq := freq } : Checkpointer).checkpoint fs iteration model
        optimizer lr_scheduler metric_dict).2 =
      (c.checkpoint fs iteration model optimizer lr_scheduler metric_dict).2 ∧
    (({ c with checkpoint_freq := freq } : Checkpointer).checkpoint fs iteration model
        optimizer lr_scheduler metric_dict).1 =
      { (c.checkpoint fs iteration model optimizer lr_scheduler metric_dict).1 with
          checkpoint_freq := freq } := by
  have hwrite : fsWrite fs (checkpointFileName iteration)
      (collect_state_dict iteration model optimizer lr_scheduler metric_dict)
      (checkpointFileName iteration) =
      some (collect_state_dict iteration model optimizer lr_scheduler metric_dict) := by
    simp [fsWrite]
  refine ⟨?_, ?_, ?_⟩
  · rw [checkpoint_result c fs iteration model optimizer lr_scheduler metric_dict h]
    by_cases hany : metric_dict.any
        (fun kv => (alookup kv.1 c.checkpoint_all_metrics).isSome) = true
    · simp only [hany, if_true]
      rw [copyBestFiles_apply _ _ _ _
        (fun m' _ => bestModelFileName_ne_checkpointFileName m' iteration),
        any_bestModelFileName_ne_checkpoint]
      simpa using hwrite
    · simp only [hany, if_false, Bool.false_eq_true]
      simpa [hany] using hwrite
  · rw [checkpoint_result c fs iteration model optimizer lr_scheduler metric_dict h,
      checkpoint_result ({ c with checkpoint_freq := freq } : Checkpointer) fs iteration
        model optimizer lr_scheduler metric_dict h]
  · rw [checkpoint_result c fs iteration model optimizer lr_scheduler metric_dict h,
      checkpoint_result ({ c with checkpoint_freq := freq } : Checkpointer) fs iteration
        model optimizer lr_scheduler metric_dict h]

/-- Witness for C9: a call above the runway with an empty metric dict
still writes the snapshot file. -/
theorem c9_witness :
    ((demoCheckpointer.checkpoint emptyFs 12 demoModel 0 none []).2
        (checkpointFileName 12) =
      some (collect_state_dict 12 demoModel 0 none [])) ∧
    (({ demoCheckpointer with checkpoint_freq := 5 } : Checkpointer).checkpoint emptyFs 12
        demoModel 0 none []).2 =
      (demoCheckpointer.checkpoint emptyFs 12 demoModel 0 none []).2 ∧
    (({ demoCheckpointer with checkpoint_freq := 5 } : Checkpointer).checkpoint emptyFs 12
        demoModel 0 none []).1 =
      { (demoCheckpointer.checkpoint emptyFs 12 demoModel 0 none []).1 with
          checkpoint_freq := 5 } :=
  c9_checkpoint_always_writes demoCheckpointer emptyFs 12 demoModel 0 none [] 5 (by decide)

/-! ## Claim C8: new bests get a best-model copy of the snapshot -/

/-- C8: when a `checkpoint` call at or above the runway establishes a new
best for metric `m`, the file `best_model_<sanitized m>.pth` afterwards
holds exactly the content of the just-written `checkpoint_<iteration>.pth`
snapshot (overwriting any prior copy). -/
theorem c8_best_model_copy (c : Checkpointer) (fs : Fs) (iteration : Int)
    (model : EmmentalModel) (optimizer : Nat) (lr_scheduler : Option Nat)
    (metric_dict : List (String × Rat)) (m : String)
    (h1 : ¬iteration < c.checkpoint_runway)
    (h2 : m ∈ (is_new_best c.checkpoint_all_metrics c.best_metric_dict metric_dict).2) :
    ((c.checkpoint fs iteration model optimizer lr_scheduler metric_dict).2
        (bestModelFileName m) =
      some (collect_state_dict iteration model optimizer lr_scheduler metric_dict)) ∧
    ((c.checkpoint fs iteration model optimizer lr_scheduler metric_dict).2
        (bestModelFileName m) =
      (c.checkpoint fs iteration model optimizer lr_scheduler metric_dict).2
        (checkpointFileName iteration)) := by
  obtain ⟨v, hvmem, htrk⟩ :=
    is_new_best_fired_tracked_present c.checkpoint_all_metrics metric_dict
      c.best_metric_dict m h2
  have hany : metric_dict.any
      (fun kv => (alookup kv.1 c.checkpoint_all_metrics).isSome) = true :=
    List.any_eq_true.mpr ⟨(m, v), hvmem, htrk⟩
  have hfirst : (c.checkpoint fs iteration model optimizer lr_scheduler metric_dict).2
      (bestModelFileName m) =
      some (collect_state_dict iteration model optimizer lr_scheduler metric_dict) := by
    rw [checkpoint_result c fs iteration model optimizer lr_scheduler metric_dict h1]
    simp only [hany, if_true]
    rw [copyBestFiles_apply _ _ _ _
      (fun m' _ => bestModelFileName_ne_checkpointFileName m' iteration)]
    rw [if_pos (List.any_eq_true.mpr ⟨m, h2, by simp⟩)]
    simp [fsWrite]
  refine ⟨hfirst, hfirst.trans ?_⟩
  rw [checkpoint_result c fs iteration model optimizer lr_scheduler metric_dict h1]
  simp only [hany, if_true]
  rw [copyBestFiles_apply _ _ _ _
    (fun m' _ => bestModelFileName_ne_checkpointFileName m' iteration),
    any_bestModelFileName_ne_checkpoint]
  simp [fsWrite]

/-- Witness for C8 at a concrete input: iteration 12, metric "accuracy"
first observed at 0.5. -/
theorem c8_witness :
    ((demoCheckpointer.checkpoint emptyFs 12 demoModel 0 none
        [("accuracy", mkRat 1 2)]).2 (bestModelFileName "accuracy") =
      some (collect_state_dict 12 demoModel 0 none [("accuracy", mkRat 1 2)])) ∧
    ((demoCheckpointer.checkpoint emptyFs 12 demoModel 0 none
        [("accuracy", mkRat 1 2)]).2 (bestModelFileName "accuracy") =
      (demoCheckpointer.checkpoint emptyFs 12 demoModel 0 none
        [("accuracy", mkRat 1 2)]).2 (checkpointFileName 12)) :=
  c8_best_model_copy demoCheckpointer emptyFs 12 demoModel 0 none
    [("accuracy", mkRat 1 2)] "accuracy" (by decide) (by decide)

/-! ## Claim C2: the ledger as an extremum of the values passed -/

theorem alookup_mem {α : Type} (k : String) (v : α) (l : List (String × α))
    (h : alookup k l = some v) : (k, v) ∈ l := by
  induction l with
  | nil => simp [alookup] at h
  | cons p rest ih =>
    obtain ⟨pk, pv⟩ := p
    by_cases hpk : pk = k
    · subst hpk
      have hpv : pv = v := by simpa [alookup] using h
      subst hpv
      exact List.mem_cons_self _ _
    · simp only [alookup, if_neg hpk] at h
      exact List.mem_cons_of_mem _ (ih h)

/-- The arguments of one `checkpoint()` call. -/
structure CallArgs where
  iteration : Int
  model : EmmentalModel
  optimizer : Nat
  lr_scheduler : Option Nat
  metric_dict : List (String × Rat)

/-- A sequence of `checkpoint()` calls against the evolving instance. -/
def runCheckpointCalls : Checkpointer → Fs → List CallArgs → Checkpointer × Fs
  | c, fs, [] => (c, fs)
  | c, fs, a :: rest =>
    let r := c.checkpoint fs a.iteration a.model a.optimizer a.lr_scheduler a.metric_dict
    runCheckpointCalls r.1 r.2 rest

/-- Every value passed for metric `m` over a sequence of calls. -/
def valuesPassed (m : String) (calls : List CallArgs) : List Rat :=
  calls.filterMap (fun a => alookup m a.metric_dict)

/-- The values passed for metric `m` in calls at or above the runway. -/
def eligibleValuesPassed (runway : Int) (m : String) (calls : List CallArgs) : List Rat :=
  calls.filterMap
    (fun a => if a.iteration < runway then none else alookup m a.metric_dict)

/-- Fold step of the running extremum: first value wins, then keep the
max (MAX mode) or min (otherwise). -/
def extremumStep (mode : String) (acc : Option Rat) (v : Rat) : Option Rat :=
  match acc with
  | none => some v
  | some b => some (if mode = "max" then max b v else min b v)

/-- The extremal value of a list of metric values under a mode (`none`
for the empty list). -/
def extremumOfList (mode : String) (vs : List Rat) : Option Rat :=
  vs.foldl (extremumStep mode) none

theorem checkpoint_preserves_config (c : Checkpointer) (fs : Fs) (iteration : Int)
    (model : EmmentalModel) (optimizer : Nat) (lr_scheduler : Option Nat)
    (metric_dict : List (String × Rat)) :
    (c.checkpoint fs iteration model optimizer lr_scheduler
        metric_dict).1.checkpoint_all_metrics = c.checkpoint_all_metrics ∧
    (c.checkpoint fs iteration model optimizer lr_scheduler
        metric_dict).1.checkpoint_runway = c.checkpoint_runway := by
  by_cases hit : iteration < c.checkpoint_runway
  · simp [Checkpointer.checkpoint, hit]
  · rw [checkpoint_result c fs iteration model optimizer lr_scheduler metric_dict hit]
    exact ⟨rfl, rfl⟩

/-- How one `checkpoint()` call transforms the ledger entry of a tracked
metric with a valid mode. -/
theorem checkpoint_ledger_lookup (c : Checkpointer) (fs : Fs) (a : CallArgs)
    (m mode : String) (hm : alookup m c.checkpoint_all_metrics = some mode)
    (hvalid : mode = "max" ∨ mode = "min")
    (hnodup : (a.metric_dict.map Prod.fst).Nodup) :
    alookup m (c.checkpoint fs a.iteration a.model a.optimizer a.lr_scheduler
        a.metric_dict).1.best_metric_dict =
      if a.iteration < c.checkpoint_runway then alookup m c.best_metric_dict
      else
        match alookup m a.metric_dict with
        | none => alookup m c.best_metric_dict
        | some v => extremumStep mode (alookup m c.best_metric_dict) v := by
  by_cases hit : a.iteration < c.checkpoint_runway
  · simp [Checkpointer.checkpoint, hit]
  · rw [if_neg hit,
      checkpoint_result c fs a.iteration a.model a.optimizer a.lr_scheduler a.metric_dict hit]
    by_cases hany : a.metric_dict.any
        (fun kv => (alookup kv.1 c.checkpoint_all_metrics).isSome) = true
    · simp only [hany, if_true]
      rw [is_new_best_ledger_lookup c.checkpoint_all_metrics m a.metric_dict
        c.best_metric_dict hnodup, hm]
      cases hent : alookup m a.metric_dict with
      | none => rfl
      | some v =>
        cases hld : alookup m c.best_metric_dict with
        | none => rfl
        | some b =>
          have hne : ¬("max" = "min") := by decide
          have hne' : ¬("min" = "max") := by decide
          simp only [extremumStep]
          rcases hvalid with hmode | hmode <;> subst hmode
          · by_cases hbv : b < v
            · simp [hbv, hne, max_eq_right (le_of_lt hbv)]
            · simp [hbv, hne, max_eq_left (le_of_not_lt hbv)]
          · by_cases hvb : v < b
            · simp [hvb, hne', min_eq_right (le_of_lt hvb)]
            · simp [hvb, hne', min_eq_left (le_of_not_lt hvb)]
    · have hent : alookup m a.metric_dict = none := by
        cases hent : alookup m a.metric_dict with
        | none => rfl
        | some v =>
          exfalso
          apply hany
          refine List.any_eq_true.mpr ⟨(m, v), alookup_mem m v a.metric_dict hent, ?_⟩
          simp [hm]
      simp only [hany, hent, if_false, Bool.false_eq_true]

/-- The ledger entry of a tracked metric after a sequence of calls is the
fold of the running extremum over the runway-eligible values. -/
theorem run_ledger_lookup (m mode : String) (hvalid : mode = "max" ∨ mode = "min")
    (calls : List CallArgs) :
    ∀ (c : Checkpointer) (fs : Fs),
      alookup m c.checkpoint_all_metrics = some mode →
      (∀ a ∈ calls, (a.metric_dict.map Prod.fst).Nodup) →
      alookup m (runCheckpointCalls c fs calls).1.best_metric_dict =
        (eligibleValuesPassed c.checkpoint_runway m calls).foldl (extremumStep mode)
          (alookup m c.best_metric_dict) := by
  induction calls with
  | nil =>
    intro c fs _ _
    simp [runCheckpointCalls, eligibleValuesPassed]
  | cons a rest ih =>
    intro c fs hm hnd
    have hpres := checkpoint_preserves_config c fs a.iteration a.model a.optimizer
      a.lr_scheduler a.metric_dict
    have hstep := checkpoint_ledger_lookup c fs a m mode hm hvalid
      (hnd a (List.mem_cons_self _ _))
    simp only [runCheckpointCalls]
    rw [ih _ _ (by rw [hpres.1]; exact hm)
      (fun a' ha' => hnd a' (List.mem_cons_of_mem _ ha')), hpres.2, hstep]
    by_cases hit : a.iteration < c.checkpoint_runway
    · simp [eligibleValuesPassed, List.filterMap_cons, hit]
    · cases hent : alookup m a.metric_dict with
      | none => simp [eligibleValuesPassed, List.filterMap_cons, hit, hent]
      | some v => simp [eligibleValuesPassed, List.filterMap_cons, hit, hent]

theorem extremum_foldl_spec (mode : String) (vs : List Rat) :
    ∀ acc b : Rat,
      vs.foldl (extremumStep mode) (some acc) = some b →
      (b = acc ∨ b ∈ vs) ∧ (mode = "max" → acc ≤ b ∧ ∀ v ∈ vs, v ≤ b) ∧
        (mode = "min" → b ≤ acc ∧ ∀ v ∈ vs, b ≤ v) := by
  induction vs with
  | nil =>
    intro acc b h
    simp only [List.foldl_nil, Option.some.injEq] at h
    subst h
    simp
  | cons v rest ih =>
    intro acc b h
    rw [List.foldl_cons] at h
    by_cases hmode : mode = "max"
    · have hstep : extremumStep mode (some acc) v = some (max acc v) := by
        simp [extremumStep, hmode]
      rw [hstep] at h
      obtain ⟨hmem, hmax, -⟩ := ih (max acc v) b h
      refine ⟨?_, ?_, ?_⟩
      · rcases hmem with hb | hb
        · rcases max_choice acc v with hc | hc
          · exact Or.inl (hb.trans hc)
          · exact Or.inr (by rw [hb, hc]; exact List.mem_cons_self _ _)
        · exact Or.inr (List.mem_cons_of_mem _ hb)
      · intro hm
        obtain ⟨hacc, hrest⟩ := hmax hm
        refine ⟨le_trans (le_max_left _ _) hacc, ?_⟩
        intro u hu
        rcases List.mem_cons.mp hu with rfl | hu
        · exact le_trans (le_max_right _ _) hacc
        · exact hrest u hu
      · intro hmin
        exact absurd (hmode.symm.trans hmin) (by decide)
    · have hstep : extremumStep mode (some acc) v = some (min acc v) := by
        simp [extremumStep, hmode]
      rw [hstep] at h
      obtain ⟨hmem, -, hmin⟩ := ih (min acc v) b h
      refine ⟨?_, ?_, ?_⟩
      · rcases hmem with hb | hb
        · rcases min_choice acc v with hc | hc
          · exact Or.inl (hb.trans hc)
          · exact Or.inr (by rw [hb, hc]; exact List.mem_cons_self _ _)
        · exact Or.inr (List.mem_cons_of_mem _ hb)
      · intro hm
        exact absurd hm hmode
      · intro hm
        obtain ⟨hacc, hrest⟩ := hmin hm
        refine ⟨le_trans hacc (min_le_left _ _), ?_⟩
        intro u hu
        rcases List.mem_cons.mp hu with rfl | hu
        · exact le_trans hacc (min_le_right _ _)
        · exact hrest u hu

theorem extremumOfList_spec (mode : String) (vs : List Rat) (b : Rat)
    (h : extremumOfList mode vs = some b) :
    b ∈ vs ∧ ∀ v ∈ vs, (mode = "max" → v ≤ b) ∧ (mode = "min" → b ≤ v) := by
  cases vs with
  | nil => simp [extremumOfList] at h
  | cons v rest =>
    rw [extremumOfList, List.foldl_cons] at h
    obtain ⟨hmem, hmax, hmin⟩ := extremum_foldl_spec mode rest v b h
    constructor
    · rcases hmem with rfl | hb
      · exact List.mem_cons_self _ _
      · exact List.mem_cons_of_mem _ hb
    · intro u hu
      rcases List.mem_cons.mp hu with rfl | hu
      · exact ⟨fun hm => (hmax hm).1, fun hm => (hmin hm).1⟩
      · exact ⟨fun hm => (hmax hm).2 u hu, fun hm => (hmin hm).2 u hu⟩

/-- The property claim C2 asserts: the ledger entry of a tracked metric
always equals the extremum of all values ever passed to `checkpoint()`,
with no side condition on the iteration. -/
def c2_claimStatement : Prop :=
  ∀ (c0 : Checkpointer) (fs0 : Fs) (calls : List CallArgs) (m mode : String) (b : Rat),
    c0.best_metric_dict = [] →
    alookup m c0.checkpoint_all_metrics = some mode →
    alookup m (runCheckpointCalls c0 fs0 calls).1.best_metric_dict = some b →
    extremumOfList mode (valuesPassed m calls) = some b

def c2Calls : List CallArgs :=
  [{ iteration := 0, model := demoModel, optimizer := 0, lr_scheduler := none,
     metric_dict := [("accuracy", mkRat 9 10)] },
   { iteration := 10, model := demoModel, optimizer := 0, lr_scheduler := none,
     metric_dict := [("accuracy", mkRat 1 2)] }]

/-- C2 fails as stated: with runway 10, the value 0.9 passed at iteration
0 is ignored, so after a later call passing 0.5 the ledger holds 0.5 while
the extremum over all passed values is 0.9. -/
theorem c2_counterexample : ¬c2_claimStatement := by
  intro h
  have h2 := h demoCheckpointer emptyFs c2Calls "accuracy" "max" (mkRat 1 2) rfl rfl
    (by decide)
  exact absurd h2 (by decide)

/-- C2 amended: the ledger entry of a tracked (valid-mode) metric equals
the extremal value over the values passed by the calls with
`iteration ≥ checkpoint_runway` only (values passed below the runway are
not reflected); the extremum is genuinely the maximum (MAX mode) or
minimum (MIN mode) of those eligible values. -/
theorem c2_ledger_extremum (c0 : Checkpointer) (fs0 : Fs) (calls : List CallArgs)
    (m mode : String)
    (h0 : c0.best_metric_dict = [])
    (hm : alookup m c0.checkpoint_all_metrics = some mode)
    (hvalid : mode = "max" ∨ mode = "min")
    (hnd : ∀ a ∈ calls, (a.metric_dict.map Prod.fst).Nodup) :
    alookup m (runCheckpointCalls c0 fs0 calls).1.best_metric_dict =
      extremumOfList mode (eligibleValuesPassed c0.checkpoint_runway m calls) ∧
    ∀ b, extremumOfList mode (eligibleValuesPassed c0.checkpoint_runway m calls) = some b →
      b ∈ eligibleValuesPassed c0.checkpoint_runway m calls ∧
      ∀ v ∈ eligibleValuesPassed c0.checkpoint_runway m calls,
        (mode = "max" → v ≤ b) ∧ (mode = "min" → b ≤ v) := by
  constructor
  · rw [run_ledger_lookup m mode hvalid calls c0 fs0 hm hnd, h0]
    rfl
  · intro b hb
    exact extremumOfList_spec mode _ b hb

/-- Witness for the amended C2 on a concrete trace. -/
theorem c2_witness :
    alookup "accuracy" (runCheckpointCalls demoCheckpointer emptyFs c2Calls).1.best_metric_dict =
      extremumOfList "max"
        (eligibleValuesPassed demoCheckpointer.checkpoint_runway "accuracy" c2Calls) ∧
    ∀ b, extremumOfList "max"
        (eligibleValuesPassed demoCheckpointer.checkpoint_runway "accuracy" c2Calls) = some b →
      b ∈ eligibleValuesPassed demoCheckpointer.checkpoint_runway "accuracy" c2Calls ∧
      ∀ v ∈ eligibleValuesPassed demoCheckpointer.checkpoint_runway "accuracy" c2Calls,
        ("max" = "max" → v ≤ b) ∧ ("max" = "min" → b ≤ v) :=
  c2_ledger_extremum demoCheckpointer emptyFs c2Calls "accuracy" "max" rfl rfl
    (Or.inl rfl) (by decide)

end Emmental
